import Mathlib

/-!
# Verification of the four-bar linkage animation core (`src/static/plot.js`)

Shallow embedding of `runAnimation`: the bounds computation, the frame-building
loop, the initial `Plotly.newPlot` layout, and the self-restarting `animateLoop`.
Coordinates are modelled as exact rationals (`ℚ`); JavaScript operations that can
fail at runtime (indexing past the end of an array, `Math.min` of an empty pool)
are modelled with `Option`.
-/

/-- A planar position, modelled from the `[x, y]` pairs in the solver response. -/
abbrev Pt : Type := ℚ × ℚ

/-- The solver response `data` consumed by `runAnimation`: four position
sequences, one per joint `A`, `B`, `C`, `D`. -/
structure SolveData where
  A : List Pt
  B : List Pt
  C : List Pt
  D : List Pt
deriving DecidableEq, Repr

/-- `allX`: every x-coordinate pushed while iterating `data.A`, `data.B`,
`data.C`, `data.D` in that order (`plot.js` lines 23-29). -/
def allX (d : SolveData) : List ℚ :=
  d.A.map Prod.fst ++ d.B.map Prod.fst ++ d.C.map Prod.fst ++ d.D.map Prod.fst

/-- `allY`: every y-coordinate pushed while iterating the four joint sequences
(`plot.js` lines 23-29). -/
def allY (d : SolveData) : List ℚ :=
  d.A.map Prod.snd ++ d.B.map Prod.snd ++ d.C.map Prod.snd ++ d.D.map Prod.snd

/-- `Math.min(...pool)`: `none` models the empty spread (JavaScript `Infinity`,
from which no finite window can be produced). -/
def jsMin : List ℚ → Option ℚ
  | [] => none
  | x :: xs => some (xs.foldl min x)

/-- `Math.max(...pool)`: `none` models the empty spread (JavaScript `-Infinity`). -/
def jsMax : List ℚ → Option ℚ
  | [] => none
  | x :: xs => some (xs.foldl max x)

/-- The four extrema `xmin`, `xmax`, `ymin`, `ymax` computed at
`plot.js` lines 31-34. -/
structure Bounds where
  xmin : ℚ
  xmax : ℚ
  ymin : ℚ
  ymax : ℚ
deriving DecidableEq, Repr

/-- Bounds computation (`plot.js` lines 31-34): min/max of the two coordinate
pools; defined exactly when both pools are non-empty. -/
def computeBounds (d : SolveData) : Option Bounds :=
  match jsMin (allX d), jsMax (allX d), jsMin (allY d), jsMax (allY d) with
  | some xmin, some xmax, some ymin, some ymax => some ⟨xmin, xmax, ymin, ymax⟩
  | _, _, _, _ => none

/-- `Math.max(xmax - xmin, ymax - ymin)`, the common subexpression of the
padding (line 36) and the display span (line 100). -/
def span0 (b : Bounds) : ℚ :=
  max (b.xmax - b.xmin) (b.ymax - b.ymin)

/-- `const padding = 0.2 * Math.max(xmax - xmin, ymax - ymin)` (line 36). -/
def padding (b : Bounds) : ℚ :=
  0.2 * max (b.xmax - b.xmin) (b.ymax - b.ymin)

/-- `const xRange = [xmin - padding, xmax + padding]` (line 38). -/
def xRange (b : Bounds) : ℚ × ℚ :=
  (b.xmin - padding b, b.xmax + padding b)

/-- `const yRange = [ymin - padding, ymax + padding]` (line 39). -/
def yRange (b : Bounds) : ℚ × ℚ :=
  (b.ymin - padding b, b.ymax + padding b)

/-- One animation frame (`frames.push({...})`, lines 46-90): the four-bar
linkage polyline, the joint labels, and the workspace trail of joint `C`. -/
structure Frame where
  linkX : List ℚ
  linkY : List ℚ
  labelX : List ℚ
  labelY : List ℚ
  labelText : List String
  traceX : List ℚ
  traceY : List ℚ
deriving DecidableEq, Repr

/-- The frame built at loop index `i` (`plot.js` lines 44-90).  `none` models
the `TypeError` thrown in JavaScript when one of `data.A[i]` … `data.D[i]` is
`undefined`; the trail is `data.C.slice(0, i + 1)` mapped to its x and y
coordinates. -/
def buildFrame (d : SolveData) (i : ℕ) : Option Frame :=
  match d.A[i]?, d.B[i]?, d.C[i]?, d.D[i]? with
  | some a, some b, some c, some e =>
      some
        { linkX := [a.1, b.1, c.1, e.1, a.1]
          linkY := [a.2, b.2, c.2, e.2, a.2]
          labelX := [a.1, b.1, c.1, e.1]
          labelY := [a.2, b.2, c.2, e.2]
          labelText := ["A", "B", "C", "D"]
          traceX := (d.C.take (i + 1)).map Prod.fst
          traceY := (d.C.take (i + 1)).map Prod.snd }
  | _, _, _, _ => none

/-- The frame-building loop `for (let i = 0; i < data.A.length; i++)` unrolled:
`framesFrom d s n` pushes the frames for indices `s, s+1, …, s+n-1`. -/
def framesFrom (d : SolveData) (s : ℕ) : ℕ → Option (List Frame)
  | 0 => some []
  | n + 1 =>
      match buildFrame d s, framesFrom d (s + 1) n with
      | some f, some fs => some (f :: fs)
      | _, _ => none

/-- The full `frames` array built by the loop at `plot.js` lines 44-91. -/
def buildFrames (d : SolveData) : Option (List Frame) :=
  framesFrom d 0 d.A.length

/-- `const cx = 0.5 * (xmin + xmax)` (line 97). -/
def cx (b : Bounds) : ℚ := 0.5 * (b.xmin + b.xmax)

/-- `const cy = 0.5 * (ymin + ymax)` (line 98). -/
def cy (b : Bounds) : ℚ := 0.5 * (b.ymin + b.ymax)

/-- `const span = Math.max(xmax - xmin, ymax - ymin) * 0.6` (line 100). -/
def span (b : Bounds) : ℚ :=
  max (b.xmax - b.xmin) (b.ymax - b.ymin) * 0.6

/-- One axis entry of the `Plotly.newPlot` layout (lines 103-117). -/
structure AxisConfig where
  range : ℚ × ℚ
  zeroline : Bool
  scaleanchor : Option String
deriving DecidableEq, Repr

/-- The layout object passed to `Plotly.newPlot` (lines 102-118). -/
structure Layout where
  xaxis : AxisConfig
  yaxis : AxisConfig
  showlegend : Bool
deriving DecidableEq, Repr

/-- The layout literal of `plot.js` lines 103-118: both axes are centered
ranges of the same half-span, and the x-axis carries `scaleanchor: "y"`. -/
def initialLayout (b : Bounds) : Layout :=
  { xaxis :=
      { range := (cx b - span b, cx b + span b)
        zeroline := true
        scaleanchor := some "y" }
    yaxis :=
      { range := (cy b - span b, cy b + span b)
        zeroline := true
        scaleanchor := none }
    showlegend := false }

/-- The `Plotly.newPlot("plot", frames[0].data, {...})` call (line 102): first
frame plus layout.  `none` models the `TypeError` on `frames[0].data` when the
frame array is empty, or undefined bounds from empty coordinate pools. -/
structure NewPlotCall where
  firstFrame : Frame
  layout : Layout
deriving DecidableEq, Repr

/-- The initial static render step of `runAnimation` (lines 96-119), chaining
the bounds, the frame array and the `frames[0]` access. -/
def initialPlot (d : SolveData) : Option NewPlotCall :=
  match computeBounds d, buildFrames d with
  | some b, some fs =>
      match fs.head? with
      | some f0 => some ⟨f0, initialLayout b⟩
      | none => none
  | _, _ => none

/-- `frame: { duration: 40, redraw: true }` (line 127). -/
structure FrameOpts where
  duration : ℚ
  redraw : Bool
deriving DecidableEq, Repr

/-- `transition: { duration: 0 }` (line 128). -/
structure TransitionOpts where
  duration : ℚ
deriving DecidableEq, Repr

/-- The options object passed to `Plotly.animate` (lines 126-129). -/
structure AnimOpts where
  frame : FrameOpts
  transition : TransitionOpts
  mode : String
deriving DecidableEq, Repr

/-- The literal animation options of `plot.js` lines 126-129. -/
def animOpts : AnimOpts :=
  { frame := { duration := 40, redraw := true }
    transition := { duration := 0 }
    mode := "afterall" }

/-- One `Plotly.animate("plot", frames, opts)` request: a full pass over the
frame sequence. -/
structure AnimateCall where
  frames : List Frame
  opts : AnimOpts
deriving DecidableEq, Repr

/-- Observable playback events of `animateLoop` (lines 125-135): issuing a
play-sequence request, or the render target signalling pass completion. -/
inductive LoopEvent
  | animate (call : AnimateCall)
  | completed
deriving DecidableEq, Repr

/-- The infinite event trace of `animateLoop`: the body issues one
`Plotly.animate` request with the whole frame array and the fixed options,
suspends on its promise, and only the `.then` continuation re-invokes
`animateLoop`.  Hence the trace strictly alternates: request, completion,
request, completion, … -/
def loopTrace (fs : List Frame) : ℕ → LoopEvent
  | n => if n % 2 = 0 then .animate ⟨fs, animOpts⟩ else .completed

/-- The two-pose example Motion Series from the specification:
`[{A:[0,0],B:[1,0],C:[1,1],D:[0,1]}, {A:[0,0],B:[0,1],C:[-1,1],D:[-1,0]}]`. -/
def exSeries : SolveData :=
  { A := [(0, 0), (0, 0)]
    B := [(1, 0), (0, 1)]
    C := [(1, 1), (-1, 1)]
    D := [(0, 1), (-1, 0)] }

/-- A degenerate Motion Series: a single pose with all four joints at the
origin, so every coordinate pool is constant. -/
def degSeries : SolveData :=
  { A := [(0, 0)], B := [(0, 0)], C := [(0, 0)], D := [(0, 0)] }

/-- The empty Motion Series (`N = 0`): all four position sequences empty. -/
def emptySeries : SolveData :=
  { A := [], B := [], C := [], D := [] }

/-- A second degenerate Motion Series: all four joints repeatedly at `(2, 3)`. -/
def degSeriesB : SolveData :=
  { A := [(2, 3), (2, 3)], B := [(2, 3), (2, 3)],
    C := [(2, 3), (2, 3)], D := [(2, 3), (2, 3)] }

/-- The frame the loop builds at index 0 of the example series. -/
def exFrame0 : Frame :=
  { linkX := [0, 1, 1, 0, 0], linkY := [0, 0, 1, 1, 0]
    labelX := [0, 1, 1, 0], labelY := [0, 0, 1, 1]
    labelText := ["A", "B", "C", "D"]
    traceX := [1], traceY := [1] }

/-- The frame the loop builds at index 1 of the example series. -/
def exFrame1 : Frame :=
  { linkX := [0, 0, -1, -1, 0], linkY := [0, 1, 1, 0, 0]
    labelX := [0, 0, -1, -1], labelY := [0, 1, 1, 0]
    labelText := ["A", "B", "C", "D"]
    traceX := [1, -1], traceY := [1, 1] }

/-- The frame array of the example series. -/
def exFrames : List Frame := [exFrame0, exFrame1]

/-- The bounds of the example series. -/
def exBounds : Bounds := ⟨-1, 1, 0, 1⟩

/-! ## Helper lemmas -/

lemma foldl_min_le_init (xs : List ℚ) : ∀ a : ℚ, xs.foldl min a ≤ a := by
  induction xs with
  | nil => intro a; simp
  | cons y ys ih =>
      intro a
      simpa using le_trans (ih (min a y)) (min_le_left a y)

lemma foldl_min_le_mem (xs : List ℚ) : ∀ a x : ℚ, x ∈ xs → xs.foldl min a ≤ x := by
  induction xs with
  | nil => intro a x hx; simp at hx
  | cons y ys ih =>
      intro a x hx
      rcases List.mem_cons.mp hx with h | h
      · subst h
        simpa using le_trans (foldl_min_le_init ys (min a x)) (min_le_right a x)
      · simpa using ih (min a y) x h

lemma foldl_min_mem (xs : List ℚ) : ∀ a : ℚ, xs.foldl min a ∈ a :: xs := by
  induction xs with
  | nil => intro a; simp
  | cons y ys ih =>
      intro a
      have hfold : (y :: ys).foldl min a = ys.foldl min (min a y) := by
        simp [List.foldl_cons]
      rw [hfold]
      rcases List.mem_cons.mp (ih (min a y)) with h | h
      · rw [h]
        rcases min_choice a y with hm | hm <;> rw [hm] <;> simp
      · exact List.mem_cons.mpr (Or.inr (List.mem_cons.mpr (Or.inr h)))

lemma init_le_foldl_max (xs : List ℚ) : ∀ a : ℚ, a ≤ xs.foldl max a := by
  induction xs with
  | nil => intro a; simp
  | cons y ys ih =>
      intro a
      simpa using le_trans (le_max_left a y) (ih (max a y))

lemma mem_le_foldl_max (xs : List ℚ) : ∀ a x : ℚ, x ∈ xs → x ≤ xs.foldl max a := by
  induction xs with
  | nil => intro a x hx; simp at hx
  | cons y ys ih =>
      intro a x hx
      rcases List.mem_cons.mp hx with h | h
      · subst h
        simpa using le_trans (le_max_right a x) (init_le_foldl_max ys (max a x))
      · simpa using ih (max a y) x h

lemma foldl_max_mem (xs : List ℚ) : ∀ a : ℚ, xs.foldl max a ∈ a :: xs := by
  induction xs with
  | nil => intro a; simp
  | cons y ys ih =>
      intro a
      have hfold : (y :: ys).foldl max a = ys.foldl max (max a y) := by
        simp [List.foldl_cons]
      rw [hfold]
      rcases List.mem_cons.mp (ih (max a y)) with h | h
      · rw [h]
        rcases max_choice a y with hm | hm <;> rw [hm] <;> simp
      · exact List.mem_cons.mpr (Or.inr (List.mem_cons.mpr (Or.inr h)))

lemma jsMin_le {l : List ℚ} {m x : ℚ} (hm : jsMin l = some m) (hx : x ∈ l) :
    m ≤ x := by
  cases l with
  | nil => exact Option.noConfusion hm
  | cons y ys =>
      simp only [jsMin, Option.some.injEq] at hm
      subst hm
      rcases List.mem_cons.mp hx with h | h
      · subst h; exact foldl_min_le_init ys x
      · exact foldl_min_le_mem ys y x h

lemma le_jsMax {l : List ℚ} {m x : ℚ} (hm : jsMax l = some m) (hx : x ∈ l) :
    x ≤ m := by
  cases l with
  | nil => exact Option.noConfusion hm
  | cons y ys =>
      simp only [jsMax, Option.some.injEq] at hm
      subst hm
      rcases List.mem_cons.mp hx with h | h
      · subst h; exact init_le_foldl_max ys x
      · exact mem_le_foldl_max ys y x h

lemma jsMin_mem {l : List ℚ} {m : ℚ} (hm : jsMin l = some m) : m ∈ l := by
  cases l with
  | nil => exact Option.noConfusion hm
  | cons y ys =>
      simp only [jsMin, Option.some.injEq] at hm
      subst hm
      exact foldl_min_mem ys y

lemma jsMax_mem {l : List ℚ} {m : ℚ} (hm : jsMax l = some m) : m ∈ l := by
  cases l with
  | nil => exact Option.noConfusion hm
  | cons y ys =>
      simp only [jsMax, Option.some.injEq] at hm
      subst hm
      exact foldl_max_mem ys y

/-- Inversion of the bounds computation: each extremum is the min/max of its
coordinate pool. -/
lemma computeBounds_inv {d : SolveData} {b : Bounds}
    (hb : computeBounds d = some b) :
    jsMin (allX d) = some b.xmin ∧ jsMax (allX d) = some b.xmax ∧
      jsMin (allY d) = some b.ymin ∧ jsMax (allY d) = some b.ymax := by
  unfold computeBounds at hb
  rcases h1 : jsMin (allX d) with _ | xm
  · rw [h1] at hb; exact Option.noConfusion hb
  rcases h2 : jsMax (allX d) with _ | xM
  · rw [h1, h2] at hb; exact Option.noConfusion hb
  rcases h3 : jsMin (allY d) with _ | ym
  · rw [h1, h2, h3] at hb; exact Option.noConfusion hb
  rcases h4 : jsMax (allY d) with _ | yM
  · rw [h1, h2, h3, h4] at hb; exact Option.noConfusion hb
  rw [h1, h2, h3, h4] at hb
  injection hb with h
  subst h
  simp_all

/-- Any point of one of the four joint sequences contributes its x-coordinate
to the `allX` pool and its y-coordinate to the `allY` pool. -/
lemma mem_pools {d : SolveData} {p : Pt}
    (hp : p ∈ d.A ++ d.B ++ d.C ++ d.D) :
    p.1 ∈ allX d ∧ p.2 ∈ allY d := by
  simp only [List.mem_append] at hp
  constructor
  · simp only [allX, List.mem_append]
    rcases hp with ((h | h) | h) | h
    · exact Or.inl (Or.inl (Or.inl (List.mem_map_of_mem Prod.fst h)))
    · exact Or.inl (Or.inl (Or.inr (List.mem_map_of_mem Prod.fst h)))
    · exact Or.inl (Or.inr (List.mem_map_of_mem Prod.fst h))
    · exact Or.inr (List.mem_map_of_mem Prod.fst h)
  · simp only [allY, List.mem_append]
    rcases hp with ((h | h) | h) | h
    · exact Or.inl (Or.inl (Or.inl (List.mem_map_of_mem Prod.snd h)))
    · exact Or.inl (Or.inl (Or.inr (List.mem_map_of_mem Prod.snd h)))
    · exact Or.inl (Or.inr (List.mem_map_of_mem Prod.snd h))
    · exact Or.inr (List.mem_map_of_mem Prod.snd h)

/-- The extrema are ordered: `xmin ≤ xmax` and `ymin ≤ ymax`. -/
lemma bounds_ordered {d : SolveData} {b : Bounds}
    (hb : computeBounds d = some b) :
    b.xmin ≤ b.xmax ∧ b.ymin ≤ b.ymax := by
  obtain ⟨h1, h2, h3, h4⟩ := computeBounds_inv hb
  exact ⟨le_jsMax h2 (jsMin_mem h1), le_jsMax h4 (jsMin_mem h3)⟩

/-- `span0` is nonnegative whenever the bounds are defined. -/
lemma span0_nonneg {d : SolveData} {b : Bounds}
    (hb : computeBounds d = some b) : 0 ≤ span0 b := by
  obtain ⟨hx, _⟩ := bounds_ordered hb
  exact le_trans (by linarith) (le_max_left _ _)

/-- Inversion of one frame: the four joint positions at index `i` exist and the
frame is exactly the record pushed by the loop body. -/
lemma buildFrame_inv {d : SolveData} {i : ℕ} {f : Frame}
    (h : buildFrame d i = some f) :
    ∃ a b c e : Pt, d.A[i]? = some a ∧ d.B[i]? = some b ∧
      d.C[i]? = some c ∧ d.D[i]? = some e ∧
      f = { linkX := [a.1, b.1, c.1, e.1, a.1]
            linkY := [a.2, b.2, c.2, e.2, a.2]
            labelX := [a.1, b.1, c.1, e.1]
            labelY := [a.2, b.2, c.2, e.2]
            labelText := ["A", "B", "C", "D"]
            traceX := (d.C.take (i + 1)).map Prod.fst
            traceY := (d.C.take (i + 1)).map Prod.snd } := by
  unfold buildFrame at h
  rcases h1 : d.A[i]? with _ | a
  · rw [h1] at h; exact Option.noConfusion h
  rcases h2 : d.B[i]? with _ | b
  · rw [h1, h2] at h; exact Option.noConfusion h
  rcases h3 : d.C[i]? with _ | c
  · rw [h1, h2, h3] at h; exact Option.noConfusion h
  rcases h4 : d.D[i]? with _ | e
  · rw [h1, h2, h3, h4] at h; exact Option.noConfusion h
  rw [h1, h2, h3, h4] at h
  injection h with h
  exact ⟨a, b, c, e, rfl, rfl, rfl, rfl, h.symm⟩

/-- A frame exists at every index that is in range for all four sequences. -/
lemma buildFrame_isSome {d : SolveData} {i : ℕ}
    (hA : i < d.A.length) (hB : i < d.B.length)
    (hC : i < d.C.length) (hD : i < d.D.length) :
    ∃ f, buildFrame d i = some f := by
  unfold buildFrame
  rw [List.getElem?_eq_getElem hA, List.getElem?_eq_getElem hB,
    List.getElem?_eq_getElem hC, List.getElem?_eq_getElem hD]
  exact ⟨_, rfl⟩

/-- Inversion of the frame-building loop: the produced list has one entry per
index, and entry `k` is the frame built at index `s + k`. -/
lemma framesFrom_inv {d : SolveData} :
    ∀ (n s : ℕ) (fs : List Frame), framesFrom d s n = some fs →
      fs.length = n ∧ ∀ k, k < n → ∃ f, buildFrame d (s + k) = some f ∧ fs[k]? = some f := by
  intro n
  induction n with
  | zero =>
      intro s fs hf
      injection hf with hf
      subst hf
      exact ⟨rfl, fun k hk => absurd hk (Nat.not_lt_zero k)⟩
  | succ n ih =>
      intro s fs hf
      unfold framesFrom at hf
      rcases h1 : buildFrame d s with _ | f
      · rw [h1] at hf; exact Option.noConfusion hf
      rcases h2 : framesFrom d (s + 1) n with _ | fs'
      · rw [h1, h2] at hf; exact Option.noConfusion hf
      rw [h1, h2] at hf
      injection hf with hf
      subst hf
      obtain ⟨hlen, helem⟩ := ih (s + 1) fs' h2
      refine ⟨by simp [hlen], ?_⟩
      intro k hk
      cases k with
      | zero => exact ⟨f, by simpa using h1, by simp⟩
      | succ k =>
          obtain ⟨g, hg, hget⟩ := helem k (Nat.lt_of_succ_lt_succ hk)
          refine ⟨g, ?_, by simpa using hget⟩
          have : s + (k + 1) = s + 1 + k := by omega
          rw [this]
          exact hg

/-- The frame-building loop succeeds whenever every index it visits is in
range for all four sequences. -/
lemma framesFrom_isSome {d : SolveData} :
    ∀ (n s : ℕ), s + n ≤ d.A.length → s + n ≤ d.B.length →
      s + n ≤ d.C.length → s + n ≤ d.D.length →
      ∃ fs, framesFrom d s n = some fs := by
  intro n
  induction n with
  | zero => intro s _ _ _ _; exact ⟨[], rfl⟩
  | succ n ih =>
      intro s hA hB hC hD
      obtain ⟨f, hf⟩ := buildFrame_isSome (d := d) (i := s)
        (by omega) (by omega) (by omega) (by omega)
      obtain ⟨fs', hfs'⟩ := ih (s + 1) (by omega) (by omega) (by omega) (by omega)
      refine ⟨f :: fs', ?_⟩
      unfold framesFrom
      rw [hf, hfs']

/-- Specialisation to the full `frames` array. -/
lemma buildFrames_inv {d : SolveData} {fs : List Frame}
    (hf : buildFrames d = some fs) :
    fs.length = d.A.length ∧
      ∀ k, k < d.A.length → ∃ f, buildFrame d k = some f ∧ fs[k]? = some f := by
  obtain ⟨hlen, helem⟩ := framesFrom_inv (d := d) d.A.length 0 fs hf
  exact ⟨hlen, fun k hk => by simpa using helem k hk⟩

example : computeBounds exSeries = some ⟨-1, 1, 0, 1⟩ := by
  norm_num [computeBounds, exSeries, allX, allY, jsMin, jsMax, min_def, max_def]
example : xRange ⟨-1, 1, 0, 1⟩ = (-1.4, 1.4) := by
  norm_num [xRange, padding, min_def, max_def]
example : yRange ⟨-1, 1, 0, 1⟩ = (-0.4, 1.4) := by
  norm_num [yRange, padding, min_def, max_def]
example : buildFrames emptySeries = some [] := by
  simp [buildFrames, emptySeries, framesFrom]
example : initialPlot emptySeries = none := by
  simp [initialPlot, computeBounds, emptySeries, allX, allY, jsMin]
example : buildFrames exSeries =
    some
      [{ linkX := [0, 1, 1, 0, 0], linkY := [0, 0, 1, 1, 0],
         labelX := [0, 1, 1, 0], labelY := [0, 0, 1, 1],
         labelText := ["A", "B", "C", "D"],
         traceX := [1], traceY := [1] },
       { linkX := [0, 0, -1, -1, 0], linkY := [0, 1, 1, 0, 0],
         labelX := [0, 0, -1, -1], labelY := [0, 1, 1, 0],
         labelText := ["A", "B", "C", "D"],
         traceX := [1, -1], traceY := [1, 1] }] := by
  simp [buildFrames, exSeries, framesFrom, buildFrame]

/-- An index at which `getElem?` succeeds is in range. -/
lemma getElem?_some_lt {α : Type} {l : List α} {i : ℕ} {x : α}
    (h : l[i]? = some x) : i < l.length := by
  by_contra hlt
  rw [List.getElem?_eq_none (Nat.le_of_not_lt hlt)] at h
  exact Option.noConfusion h

/-- Concrete evaluation: the bounds of the example series. -/
lemma exBounds_eq : computeBounds exSeries = some exBounds := by
  norm_num [computeBounds, exSeries, exBounds, allX, allY, jsMin, jsMax,
    min_def, max_def]

/-- Concrete evaluation: the frame array of the example series. -/
lemma exFrames_eq : buildFrames exSeries = some exFrames := by
  simp [buildFrames, exSeries, framesFrom, buildFrame, exFrames, exFrame0, exFrame1]

/-- **C1.** For every non-empty Motion Series, every Position of every Pose
lies inside the padded View Window: for each point `(x, y)` of each of the
four joints at each time step, `xmin - padding ≤ x ≤ xmax + padding` and
`ymin - padding ≤ y ≤ ymax + padding`, where the extrema are taken over all
joints and steps and `padding = 0.2 * max (xmax - xmin) (ymax - ymin)`. -/
theorem spec_c1 {d : SolveData} {b : Bounds} (hb : computeBounds d = some b) :
    ∀ p ∈ d.A ++ d.B ++ d.C ++ d.D,
      (xRange b).1 ≤ p.1 ∧ p.1 ≤ (xRange b).2 ∧
        (yRange b).1 ≤ p.2 ∧ p.2 ≤ (yRange b).2 := by
  intro p hp
  obtain ⟨hx, hy⟩ := mem_pools hp
  obtain ⟨h1, h2, h3, h4⟩ := computeBounds_inv hb
  have hxmin := jsMin_le h1 hx
  have hxmax := le_jsMax h2 hx
  have hymin := jsMin_le h3 hy
  have hymax := le_jsMax h4 hy
  have hpad : 0 ≤ padding b := by
    have hs := span0_nonneg hb
    have hps : padding b = 0.2 * span0 b := rfl
    rw [hps]
    linarith
  simp only [xRange, yRange]
  exact ⟨by linarith, by linarith, by linarith, by linarith⟩

/-- **C1 witness**: the point `(1, 1)` (joint C at step 0) of the example
series lies inside its padded View Window. -/
theorem spec_c1_witness :
    (xRange exBounds).1 ≤ 1 ∧ (1 : ℚ) ≤ (xRange exBounds).2 ∧
      (yRange exBounds).1 ≤ 1 ∧ (1 : ℚ) ≤ (yRange exBounds).2 :=
  spec_c1 exBounds_eq ((1 : ℚ), (1 : ℚ)) (by norm_num [exSeries])

/-- **C2.** The Bounds Estimator computes the padded View Window exactly as
specified: `xmin`/`xmax`/`ymin`/`ymax` are the minima and maxima of the pooled
x- and y-coordinates of all four joints over all time steps,
`padding = 0.2 * max (xmax - xmin) (ymax - ymin)`, and the padded ranges are
`[xmin - padding, xmax + padding]` and `[ymin - padding, ymax + padding]`;
in particular, on the two-pose example Motion Series the padded x-range is
`[-1.4, 1.4]` and the padded y-range is `[-0.4, 1.4]`. -/
theorem spec_c2 :
    (∀ (d : SolveData) (b : Bounds), computeBounds d = some b →
        (b.xmin ∈ allX d ∧ ∀ x ∈ allX d, b.xmin ≤ x) ∧
        (b.xmax ∈ allX d ∧ ∀ x ∈ allX d, x ≤ b.xmax) ∧
        (b.ymin ∈ allY d ∧ ∀ y ∈ allY d, b.ymin ≤ y) ∧
        (b.ymax ∈ allY d ∧ ∀ y ∈ allY d, y ≤ b.ymax) ∧
        padding b = 0.2 * max (b.xmax - b.xmin) (b.ymax - b.ymin) ∧
        xRange b = (b.xmin - padding b, b.xmax + padding b) ∧
        yRange b = (b.ymin - padding b, b.ymax + padding b)) ∧
    (computeBounds exSeries).map xRange = some (-1.4, 1.4) ∧
    (computeBounds exSeries).map yRange = some (-0.4, 1.4) := by
  refine ⟨?_, ?_, ?_⟩
  · intro d b hb
    obtain ⟨h1, h2, h3, h4⟩ := computeBounds_inv hb
    exact ⟨⟨jsMin_mem h1, fun x hx => jsMin_le h1 hx⟩,
      ⟨jsMax_mem h2, fun x hx => le_jsMax h2 hx⟩,
      ⟨jsMin_mem h3, fun y hy => jsMin_le h3 hy⟩,
      ⟨jsMax_mem h4, fun y hy => le_jsMax h4 hy⟩, rfl, rfl, rfl⟩
  · rw [exBounds_eq]
    norm_num [exBounds, xRange, padding, min_def, max_def]
  · rw [exBounds_eq]
    norm_num [exBounds, yRange, padding, min_def, max_def]

/-- **C2 witness**: on the example series the computed `xmin` is `-1`, a member
of the x-pool and a lower bound of it. -/
theorem spec_c2_witness :
    computeBounds exSeries = some exBounds ∧
      ((-1 : ℚ) ∈ allX exSeries ∧ ∀ x ∈ allX exSeries, (-1 : ℚ) ≤ x) :=
  ⟨exBounds_eq, (spec_c2.1 exSeries exBounds exBounds_eq).1⟩

/-- **C3.** For every Motion Series of length `N ≥ 1`, the produced Frame
Sequence has exactly `N` Frames in index order, and Frame `i`'s linkage
polyline consists of exactly 5 points in the order A, B, C, D, A of Pose `i`,
so its first and last points both equal Pose `i`'s A-position. -/
theorem spec_c3 {d : SolveData}
    (hB : d.B.length = d.A.length) (hC : d.C.length = d.A.length)
    (hD : d.D.length = d.A.length) (_hN : 1 ≤ d.A.length) :
    ∃ fs, buildFrames d = some fs ∧ fs.length = d.A.length ∧
      ∀ (i : ℕ) (f : Frame), fs[i]? = some f →
        ∃ a b c e : Pt, d.A[i]? = some a ∧ d.B[i]? = some b ∧
          d.C[i]? = some c ∧ d.D[i]? = some e ∧
          f.linkX = [a.1, b.1, c.1, e.1, a.1] ∧
          f.linkY = [a.2, b.2, c.2, e.2, a.2] ∧
          f.linkX.length = 5 ∧ f.linkY.length = 5 ∧
          f.linkX.head? = some a.1 ∧ f.linkX.getLast? = some a.1 ∧
          f.linkY.head? = some a.2 ∧ f.linkY.getLast? = some a.2 := by
  obtain ⟨fs, hfs⟩ := framesFrom_isSome (d := d) d.A.length 0
    (by omega) (by omega) (by omega) (by omega)
  obtain ⟨hlen, helem⟩ := buildFrames_inv hfs
  refine ⟨fs, hfs, hlen, ?_⟩
  intro i f hif
  have hi : i < d.A.length := hlen ▸ getElem?_some_lt hif
  obtain ⟨g, hg, hget⟩ := helem i hi
  rw [hif] at hget
  injection hget with hget
  subst hget
  obtain ⟨a, b, c, e, h1, h2, h3, h4, hfrm⟩ := buildFrame_inv hg
  subst hfrm
  exact ⟨a, b, c, e, h1, h2, h3, h4, rfl, rfl, rfl, rfl, rfl, by simp, rfl, by simp⟩

/-- **C3 witness**: the example series (N = 2) produces a Frame Sequence of
length 2, whose Frame 0 closes back to Pose 0's A-position `(0, 0)`. -/
theorem spec_c3_witness :
    ∃ fs, buildFrames exSeries = some fs ∧ fs.length = exSeries.A.length ∧
      ∀ (i : ℕ) (f : Frame), fs[i]? = some f →
        ∃ a b c e : Pt, exSeries.A[i]? = some a ∧ exSeries.B[i]? = some b ∧
          exSeries.C[i]? = some c ∧ exSeries.D[i]? = some e ∧
          f.linkX = [a.1, b.1, c.1, e.1, a.1] ∧
          f.linkY = [a.2, b.2, c.2, e.2, a.2] ∧
          f.linkX.length = 5 ∧ f.linkY.length = 5 ∧
          f.linkX.head? = some a.1 ∧ f.linkX.getLast? = some a.1 ∧
          f.linkY.head? = some a.2 ∧ f.linkY.getLast? = some a.2 :=
  spec_c3 rfl rfl rfl (by norm_num [exSeries])

/-- **C4.** For every Motion Series and every index `i < N`, Frame `i`'s trace
has exactly `i + 1` points and equals the prefix of joint C's positions from
step 0 through step `i` in time order; Frame `i + 1`'s trace is a strict
prefix-extension of Frame `i`'s trace, and Frame 0's trace is the single point
C at step 0. -/
theorem spec_c4 {d : SolveData} {fs : List Frame}
    (hC : d.C.length = d.A.length) (hf : buildFrames d = some fs) :
    (∀ (i : ℕ) (f : Frame), fs[i]? = some f →
        f.traceX = (d.C.take (i + 1)).map Prod.fst ∧
        f.traceY = (d.C.take (i + 1)).map Prod.snd ∧
        f.traceX.length = i + 1 ∧ f.traceY.length = i + 1) ∧
    (∀ (i : ℕ) (f g : Frame), fs[i]? = some f → fs[i + 1]? = some g →
        ∃ c : Pt, d.C[i + 1]? = some c ∧
          g.traceX = f.traceX ++ [c.1] ∧ g.traceY = f.traceY ++ [c.2]) ∧
    (∀ f : Frame, fs[0]? = some f →
        ∃ c : Pt, d.C[0]? = some c ∧ f.traceX = [c.1] ∧ f.traceY = [c.2]) := by
  obtain ⟨hlen, helem⟩ := buildFrames_inv hf
  have hframe : ∀ (i : ℕ) (f : Frame), fs[i]? = some f →
      buildFrame d i = some f ∧ i < d.C.length := by
    intro i f hif
    have hi : i < d.A.length := hlen ▸ getElem?_some_lt hif
    obtain ⟨g, hg, hget⟩ := helem i hi
    rw [hif] at hget
    injection hget with hget
    subst hget
    exact ⟨hg, hC ▸ hi⟩
  have hpart1 : ∀ (i : ℕ) (f : Frame), fs[i]? = some f →
      f.traceX = (d.C.take (i + 1)).map Prod.fst ∧
      f.traceY = (d.C.take (i + 1)).map Prod.snd ∧
      f.traceX.length = i + 1 ∧ f.traceY.length = i + 1 := by
    intro i f hif
    obtain ⟨hg, hiC⟩ := hframe i f hif
    obtain ⟨a, b, c, e, _, _, _, _, hfrm⟩ := buildFrame_inv hg
    subst hfrm
    have hlen1 : ((d.C.take (i + 1)).map Prod.fst).length = i + 1 := by
      simp [List.length_take]
      omega
    have hlen2 : ((d.C.take (i + 1)).map Prod.snd).length = i + 1 := by
      simp [List.length_take]
      omega
    exact ⟨rfl, rfl, hlen1, hlen2⟩
  refine ⟨hpart1, ?_, ?_⟩
  · intro i f g hif hig
    obtain ⟨hxf, hyf, _, _⟩ := hpart1 i f hif
    obtain ⟨hxg, hyg, _, _⟩ := hpart1 (i + 1) g hig
    have hiC : i + 1 < d.C.length := (hframe (i + 1) g hig).2
    have hc : d.C[i + 1]? = some d.C[i + 1] := List.getElem?_eq_getElem hiC
    refine ⟨d.C[i + 1], hc, ?_, ?_⟩
    · rw [hxg, hxf, List.take_succ, hc]
      simp [List.take_succ, List.getElem?_map, hc]
    · rw [hyg, hyf, List.take_succ, hc]
      simp [List.take_succ, List.getElem?_map, hc]
  · intro f h0
    obtain ⟨hxf, hyf, _, _⟩ := hpart1 0 f h0
    have h0C : 0 < d.C.length := (hframe 0 f h0).2
    have hc : d.C[0]? = some d.C[0] := List.getElem?_eq_getElem h0C
    refine ⟨d.C[0], hc, ?_, ?_⟩
    · rw [hxf]
      rw [show (0 : ℕ) + 1 = 1 from rfl, List.take_succ, hc]
      simp
    · rw [hyf]
      rw [show (0 : ℕ) + 1 = 1 from rfl, List.take_succ, hc]
      simp

/-- **C4 witness**: on the example series, Frame 1's trace is
`[(1,1), (-1,1)]` — the two-step prefix of joint C — and extends Frame 0's
single-point trace. -/
theorem spec_c4_witness :
    exFrame1.traceX = (exSeries.C.take 2).map Prod.fst ∧
      exFrame1.traceX.length = 2 ∧
      ∃ c : Pt, exSeries.C[1]? = some c ∧
        exFrame1.traceX = exFrame0.traceX ++ [c.1] ∧
        exFrame1.traceY = exFrame0.traceY ++ [c.2] := by
  have h := spec_c4 (d := exSeries) rfl exFrames_eq
  have h1 := h.1 1 exFrame1 (by simp [exFrames])
  have h2 := h.2.1 0 exFrame0 exFrame1 (by simp [exFrames]) (by simp [exFrames])
  exact ⟨h1.1, h1.2.2.1, h2⟩

/-- **C5.** Frame building is a pure function of the index and the Motion
Series: assembling the Frame Sequence twice from the same Motion Series yields
identical (element-wise equal) sequences, and each element is the frame the
Frame Builder returns for its index. -/
theorem spec_c5 (d : SolveData) :
    buildFrames d = buildFrames d ∧
    ∀ fs1 fs2 : List Frame, buildFrames d = some fs1 → buildFrames d = some fs2 →
      fs1.length = fs2.length ∧
        (∀ i : ℕ, fs1[i]? = fs2[i]?) ∧
        (∀ (i : ℕ) (f : Frame), fs1[i]? = some f → buildFrame d i = some f) := by
  refine ⟨rfl, ?_⟩
  intro fs1 fs2 h1 h2
  rw [h1] at h2
  injection h2 with h2
  subst h2
  refine ⟨rfl, fun i => rfl, ?_⟩
  intro i f hif
  obtain ⟨hlen, helem⟩ := buildFrames_inv h1
  have hi : i < d.A.length := hlen ▸ getElem?_some_lt hif
  obtain ⟨g, hg, hget⟩ := helem i hi
  rw [hif] at hget
  injection hget with hget
  subst hget
  exact hg

/-- **C5 witness**: two assemblies of the example series agree element-wise. -/
theorem spec_c5_witness :
    exFrames.length = exFrames.length ∧
      (∀ i : ℕ, exFrames[i]? = exFrames[i]?) ∧
      (∀ (i : ℕ) (f : Frame), exFrames[i]? = some f →
        buildFrame exSeries i = some f) :=
  (spec_c5 exSeries).2 exFrames exFrames exFrames_eq exFrames_eq

/-- **C6.** The display window for the initial static render: center
`(cx, cy)` is the midpoint of the extrema, the half-span is `0.6 * span0` on
both axes (equal widths, hence 1:1 aspect), each axis range is
`[center - half-span, center + half-span]`, and the x-axis carries the
equal-scale constraint `scaleanchor = "y"` on the render target. -/
theorem spec_c6 (b : Bounds) :
    (initialLayout b).xaxis.range = (cx b - span b, cx b + span b) ∧
    (initialLayout b).yaxis.range = (cy b - span b, cy b + span b) ∧
    cx b = (b.xmin + b.xmax) / 2 ∧ cy b = (b.ymin + b.ymax) / 2 ∧
    span b = 0.6 * span0 b ∧
    (initialLayout b).xaxis.range.2 - (initialLayout b).xaxis.range.1 =
      (initialLayout b).yaxis.range.2 - (initialLayout b).yaxis.range.1 ∧
    (initialLayout b).xaxis.scaleanchor = some "y" := by
  refine ⟨rfl, rfl, ?_, ?_, ?_, ?_, rfl⟩
  · unfold cx; ring
  · unfold cy; ring
  · unfold span span0; ring
  · simp only [initialLayout]
    ring

/-- **C7 counterexample.** The claim says an empty Motion Series is rejected
with a defined error *before* Frame Sequence Assembly runs, rather than
producing an empty Frame Sequence.  In the code there is no such rejection:
the frame loop runs (zero iterations) and produces exactly the empty Frame
Sequence the claim rules out. -/
theorem spec_c7_counterexample : buildFrames emptySeries = some [] := rfl

/-- **C7 amended.** An empty Motion Series is not rejected: Frame Sequence
Assembly runs and produces an empty Frame Sequence, and the subsequent initial
render step fails (there is no `frames[0]`), so no rendering command is
issued. -/
theorem spec_c7_amended (d : SolveData) (hA : d.A = []) :
    buildFrames d = some [] ∧ initialPlot d = none := by
  have hframes : buildFrames d = some [] := by
    unfold buildFrames
    rw [hA]
    rfl
  refine ⟨hframes, ?_⟩
  unfold initialPlot
  rw [hframes]
  rcases hcb : computeBounds d with _ | b
  · rfl
  · rfl

/-- **C7 witness**: the amended claim applied to the empty Motion Series. -/
theorem spec_c7_witness :
    buildFrames emptySeries = some [] ∧ initialPlot emptySeries = none :=
  spec_c7_amended emptySeries rfl

/-- **C8 counterexample.** The claim says that when all positions coincide the
implementation applies a minimum positive span so that it never produces a
zero-area View Window.  On a single repeated pose at the origin, the padding
is 0, both padded ranges collapse to the single point 0, and the display
half-span is 0: a zero-area window is produced. -/
theorem spec_c8_counterexample :
    computeBounds degSeries = some ⟨0, 0, 0, 0⟩ ∧
      padding ⟨0, 0, 0, 0⟩ = 0 ∧
      xRange ⟨0, 0, 0, 0⟩ = (0, 0) ∧ yRange ⟨0, 0, 0, 0⟩ = (0, 0) ∧
      span ⟨0, 0, 0, 0⟩ = 0 := by
  refine ⟨?_, ?_, ?_, ?_, ?_⟩ <;>
    norm_num [computeBounds, degSeries, allX, allY, jsMin, jsMax,
      padding, xRange, yRange, span, min_def, max_def]

/-- **C8 amended.** When all positions in the Motion Series coincide
(`span0 = 0`), no minimum span is applied: the padding and the display
half-span are both 0, the extrema coincide, and the padded and display View
Windows are zero-area (each range collapses to a single point). -/
theorem spec_c8_amended {d : SolveData} {b : Bounds}
    (hb : computeBounds d = some b) (h0 : span0 b = 0) :
    padding b = 0 ∧ span b = 0 ∧ b.xmax = b.xmin ∧ b.ymax = b.ymin ∧
      xRange b = (b.xmin, b.xmin) ∧ yRange b = (b.ymin, b.ymin) ∧
      (initialLayout b).xaxis.range = (cx b, cx b) ∧
      (initialLayout b).yaxis.range = (cy b, cy b) := by
  obtain ⟨hxo, hyo⟩ := bounds_ordered hb
  have hdx : b.xmax - b.xmin ≤ 0 := h0 ▸ le_max_left (b.xmax - b.xmin) (b.ymax - b.ymin)
  have hdy : b.ymax - b.ymin ≤ 0 := h0 ▸ le_max_right (b.xmax - b.xmin) (b.ymax - b.ymin)
  have hx : b.xmax = b.xmin := by linarith
  have hy : b.ymax = b.ymin := by linarith
  have hpad : padding b = 0 := by
    have hps : padding b = 0.2 * span0 b := rfl
    rw [hps, h0]
    ring
  have hspan : span b = 0 := by
    have hss : span b = span0 b * 0.6 := rfl
    rw [hss, h0]
    ring
  refine ⟨hpad, hspan, hx, hy, ?_, ?_, ?_, ?_⟩
  · simp [xRange, hpad, hx]
  · simp [yRange, hpad, hy]
  · simp [initialLayout, hspan]
  · simp [initialLayout, hspan]

/-- **C8 witness**: the amended claim applied to a series with every joint at
`(2, 3)`: both windows collapse to the single point `(2, 3)`. -/
theorem spec_c8_witness :
    padding ⟨2, 2, 3, 3⟩ = 0 ∧ span ⟨2, 2, 3, 3⟩ = 0 ∧
      (2 : ℚ) = 2 ∧ (3 : ℚ) = 3 ∧
      xRange ⟨2, 2, 3, 3⟩ = (2, 2) ∧ yRange ⟨2, 2, 3, 3⟩ = (3, 3) ∧
      (initialLayout ⟨2, 2, 3, 3⟩).xaxis.range = (cx ⟨2, 2, 3, 3⟩, cx ⟨2, 2, 3, 3⟩) ∧
      (initialLayout ⟨2, 2, 3, 3⟩).yaxis.range = (cy ⟨2, 2, 3, 3⟩, cy ⟨2, 2, 3, 3⟩) :=
  spec_c8_amended (d := degSeriesB) (b := ⟨2, 2, 3, 3⟩)
    (by norm_num [computeBounds, degSeriesB, allX, allY, jsMin, jsMax, min_def, max_def])
    (by norm_num [span0])

/-- **C9.** During playback every pass presents the Frames in strict index
order (each request carries the whole frame array, whose entry `i` is the
frame built at index `i`), holding each Frame for a fixed duration of 40 time
units with redraw forced and zero inter-frame transition; the event trace
strictly alternates one play-sequence request with one completion signal, so
upon completing a pass exactly one new request is issued, passes never
overlap, and playback repeats unboundedly. -/
theorem spec_c9 {d : SolveData} {fs : List Frame} (hf : buildFrames d = some fs) :
    (∀ k : ℕ, loopTrace fs (2 * k) = LoopEvent.animate ⟨fs, animOpts⟩) ∧
    (∀ k : ℕ, loopTrace fs (2 * k + 1) = LoopEvent.completed) ∧
    animOpts.frame.duration = 40 ∧ animOpts.frame.redraw = true ∧
    animOpts.transition.duration = 0 ∧
    fs.length = d.A.length ∧
    (∀ (i : ℕ) (f : Frame), fs[i]? = some f → buildFrame d i = some f) := by
  obtain ⟨hlen, helem⟩ := buildFrames_inv hf
  refine ⟨?_, ?_, rfl, rfl, rfl, hlen, ?_⟩
  · intro k
    have hk : 2 * k % 2 = 0 := Nat.mul_mod_right 2 k
    simp [loopTrace, hk]
  · intro k
    have hk : (2 * k + 1) % 2 = 1 := by omega
    simp [loopTrace, hk]
  · intro i f hif
    have hi : i < d.A.length := hlen ▸ getElem?_some_lt hif
    obtain ⟨g, hg, hget⟩ := helem i hi
    rw [hif] at hget
    injection hget with hget
    subst hget
    exact hg

/-- **C9 witness**: on the example series, event 0 of the trace is the
play-sequence request with the full frame array and the fixed options, and
event 1 is its completion. -/
theorem spec_c9_witness :
    loopTrace exFrames 0 = LoopEvent.animate ⟨exFrames, animOpts⟩ ∧
      loopTrace exFrames 1 = LoopEvent.completed := by
  have h := spec_c9 exFrames_eq
  exact ⟨h.1 0, h.2.1 0⟩

/-- **C10.** For every non-empty Motion Series the display window actually
used for the initial render also contains every Position of every Pose:
`cx - 0.6*span0 ≤ x ≤ cx + 0.6*span0` and `cy - 0.6*span0 ≤ y ≤ cy + 0.6*span0`
for every coordinate, strictly whenever `span0 > 0`; and the axis ranges
passed to the render target are exactly the display ranges (not the
separately computed padded ranges). -/
theorem spec_c10 {d : SolveData} {b : Bounds} (hb : computeBounds d = some b) :
    (∀ p ∈ d.A ++ d.B ++ d.C ++ d.D,
        (cx b - span b ≤ p.1 ∧ p.1 ≤ cx b + span b ∧
          cy b - span b ≤ p.2 ∧ p.2 ≤ cy b + span b) ∧
        (0 < span0 b →
          cx b - span b < p.1 ∧ p.1 < cx b + span b ∧
          cy b - span b < p.2 ∧ p.2 < cy b + span b)) ∧
    (∀ call : NewPlotCall, initialPlot d = some call →
        call.layout.xaxis.range = (cx b - span b, cx b + span b) ∧
        call.layout.yaxis.range = (cy b - span b, cy b + span b)) := by
  constructor
  · intro p hp
    obtain ⟨hx, hy⟩ := mem_pools hp
    obtain ⟨h1, h2, h3, h4⟩ := computeBounds_inv hb
    have hxmin := jsMin_le h1 hx
    have hxmax := le_jsMax h2 hx
    have hymin := jsMin_le h3 hy
    have hymax := le_jsMax h4 hy
    have hs0 := span0_nonneg hb
    have hdx : b.xmax - b.xmin ≤ span0 b := le_max_left _ _
    have hdy : b.ymax - b.ymin ≤ span0 b := le_max_right _ _
    have hss : span b = span0 b * 0.6 := rfl
    have hcx : cx b = 0.5 * (b.xmin + b.xmax) := rfl
    have hcy : cy b = 0.5 * (b.ymin + b.ymax) := rfl
    constructor
    · refine ⟨?_, ?_, ?_, ?_⟩ <;> rw [hss] <;> [rw [hcx]; rw [hcx]; rw [hcy]; rw [hcy]] <;>
        linarith
    · intro hpos
      refine ⟨?_, ?_, ?_, ?_⟩ <;> rw [hss] <;> [rw [hcx]; rw [hcx]; rw [hcy]; rw [hcy]] <;>
        linarith
  · intro call hcall
    unfold initialPlot at hcall
    rw [hb] at hcall
    rcases hbf : buildFrames d with _ | fs
    · rw [hbf] at hcall; exact Option.noConfusion hcall
    rw [hbf] at hcall
    have hcall2 : (match fs.head? with
        | some f0 => some (⟨f0, initialLayout b⟩ : NewPlotCall)
        | none => none) = some call := hcall
    rcases hh : fs.head? with _ | f0
    · rw [hh] at hcall2; exact Option.noConfusion hcall2
    rw [hh] at hcall2
    injection hcall2 with hcall2
    subst hcall2
    exact ⟨rfl, rfl⟩

/-- **C10 witness**: the point `(1, 1)` of the example series lies inside the
display window used for the initial render. -/
theorem spec_c10_witness :
    cx exBounds - span exBounds ≤ 1 ∧ (1 : ℚ) ≤ cx exBounds + span exBounds ∧
      cy exBounds - span exBounds ≤ 1 ∧ (1 : ℚ) ≤ cy exBounds + span exBounds :=
  ((spec_c10 exBounds_eq).1 ((1 : ℚ), (1 : ℚ)) (by norm_num [exSeries])).1
